import Mathlib

/-!
Verification development for the sanjeevani-agents repository.

The Python source is embedded shallowly:
  * pure string manipulation (`str.lower`, `str.split`, substring tests,
    `rapidfuzz.fuzz.ratio`) becomes executable Lean functions on `String`;
  * the dynamic result dictionaries become records with `Option` fields
    (an absent dictionary key is `none`);
  * fallible operations (network search calls, `plan[idx]` indexing,
    `results[0]` on a possibly-empty list) return `Except`;
  * the LangGraph state machine of `src/agents/super_agents.py` becomes an
    explicit step relation on an `AgentState` record, with the language-model
    and worker-agent behaviours as oracle parameters.
All queries and dictionary entries in scope are ASCII, so `Char.toLower` and
`Char.toUpper` agree with Python's `str.lower`/`str.upper` on them.
-/

namespace Sanjeevani

/-! ## Python string primitives -/

/-- Python `str.lower()` (ASCII fragment). -/
def pyLower (s : String) : String := ⟨s.data.map Char.toLower⟩

/-- Python `str.upper()` (ASCII fragment). -/
def pyUpper (s : String) : String := ⟨s.data.map Char.toUpper⟩

/-- Python substring test `needle in hay`. -/
def pyIn (needle hay : String) : Bool := decide (List.IsInfix needle.data hay.data)

/-- Whitespace characters recognised by Python's `str.split()` /
`str.strip()` on ASCII text. -/
def pyIsSpace (c : Char) : Bool :=
  c = ' ' || c = '\t' || c = '\n' || c = '\x0d' || c = '\x0b' || c = '\x0c'

/-- Helper for `pySplit`: accumulates the current word (reversed). -/
def splitWsAux : List Char → List Char → List (List Char)
  | acc, [] => if acc.isEmpty then [] else [acc.reverse]
  | acc, c :: cs =>
    if pyIsSpace c then
      if acc.isEmpty then splitWsAux [] cs else acc.reverse :: splitWsAux [] cs
    else
      splitWsAux (c :: acc) cs

/-- Python `str.split()` with no separator: splits on runs of whitespace and
drops empty pieces. -/
def pySplit (s : String) : List String :=
  (splitWsAux [] s.data).map (fun l => ⟨l⟩)

/-- Python `str.strip()`: removes leading and trailing whitespace. -/
def pyStrip (s : String) : String :=
  ⟨((s.data.dropWhile pyIsSpace).reverse.dropWhile pyIsSpace).reverse⟩

/-! ## rapidfuzz similarity

`rapidfuzz.fuzz.ratio(a, b)` is the normalized InDel similarity
`100 * (1 - dist / (len a + len b))` where `dist` is the
insertion/deletion-only edit distance, i.e. `len a + len b - 2 * lcs a b`.
We compute it exactly as a rational number; the Python float comparison
against the integer threshold 79 agrees with the exact comparison for the
short strings in scope. -/

/-- Length of a longest common subsequence, with explicit fuel so that the
recursion is structural (every call consumes one unit of fuel and shortens
the combined length by at least one, so `length + length` fuel is always
sufficient). Matching equal heads first is a standard correct LCS
computation. -/
def lcsAux : Nat → List Char → List Char → Nat
  | 0, _, _ => 0
  | _ + 1, [], _ => 0
  | _ + 1, _ :: _, [] => 0
  | fuel + 1, a :: as, b :: bs =>
    if a = b then lcsAux fuel as bs + 1
    else max (lcsAux fuel (a :: as) bs) (lcsAux fuel as (b :: bs))

def lcs (a b : List Char) : Nat := lcsAux (a.length + b.length) a b

/-- Numerator of `fuzz.ratio a b` as the exact fraction
`(200 * lcs) / (len a + len b)`. Python compares the resulting float with
thresholds and other scores; for the short strings in scope the float
comparisons agree with the exact cross-multiplied comparisons used here. -/
def fuzzNum (a b : String) : Nat := 200 * lcs a.data b.data

/-- Denominator of `fuzz.ratio a b`. -/
def fuzzDen (a b : String) : Nat := a.length + b.length

/-- One comparison step of `extractOne`: keep the strictly better score
(cross-multiplied exact comparison of the two fractions). -/
def extractOneStep (w : String) (best : Option (String × Nat × Nat))
    (k : String) : Option (String × Nat × Nat) :=
  match best with
  | none => some (k, fuzzNum w k, fuzzDen w k)
  | some (bk, bn, bd) =>
    if fuzzNum w k * bd > bn * fuzzDen w k then
      some (k, fuzzNum w k, fuzzDen w k)
    else some (bk, bn, bd)

/-- `rapidfuzz.process.extractOne(w, choices, scorer=fuzz.ratio)`:
best-scoring choice with its score as an exact fraction, earliest wins
ties; `none` only for an empty choice list. -/
def extractOne (w : String) (choices : List String) :
    Option (String × Nat × Nat) :=
  choices.foldl (extractOneStep w) none

/-! ## EntityExtractor (`BaseAgent._extract_plant_names`) -/

/-- The static alias dictionary `common_name_map` of
`src/agents/base_agent.py` (insertion order preserved). -/
def commonNameMap : List (String × List String) :=
  [ ("tulsi", ["tulsi", "holy basil", "ocimum sanctum"]),
    ("neem", ["neem", "azadirachta indica"]),
    ("turmeric", ["turmeric", "curcuma longa"]),
    ("ashwagandha", ["ashwagandha", "withania somnifera"]),
    ("moringa", ["moringa", "drumstick tree", "moringa oleifera"]),
    ("galangal", ["galangal", "greater galangal", "alpinia galanga"]),
    ("karonda", ["karonda", "christ\x27s thorn", "carissa carandas"]),
    ("jasmine", ["jasmine", "jasminum"]),
    ("ashoka", ["ashoka", "saraca asoca"]),
    ("kalmegh", ["kalmegh", "green chiretta", "andrographis paniculata"]) ]

/-- The canonical keys, in dictionary order (`common_name_map.keys()`). -/
def dictKeys : List String := commonNameMap.map Prod.fst

/-- `common_name_map[k]` (every lookup in the source is with a key returned
by `extractOne`, hence present). -/
def variantsOf (k : String) : List String :=
  ((commonNameMap.find? (fun kv => kv.1 = k)).map Prod.snd).getD []

/-- The stopword set of `_extract_plant_names`. -/
def stopwords : List String :=
  ["tell", "about", "what", "where", "when", "which", "this", "that",
   "plant", "herb", "tree", "grow", "find", "benefits", "uses", "today",
   "raining"]

/-- One step of the exact-substring phase of `_extract_plant_names`:
a dictionary entry with some variant occurring in the lowered query
extends the accumulator with all its variants. -/
def exactStep (ql : String) (acc : List String)
    (kv : String × List String) : List String :=
  if kv.2.any (fun v => pyIn v ql) then acc ++ kv.2 else acc

/-- Phase 1 of `_extract_plant_names`. -/
def exactPhase (ql : String) : List String :=
  commonNameMap.foldl (exactStep ql) []

/-- The alias-list closure invariant of the extractor's accumulator: if a
canonical key is in the accumulator, so is its whole variant list. It
holds because variant lists only ever enter the accumulator whole and a
key occurs in no other entry's variant list. -/
def GoodAcc (acc : List String) : Prop :=
  ∀ kv ∈ commonNameMap, kv.1 ∈ acc → ∀ v ∈ kv.2, v ∈ acc

/-- One iteration of the fuzzy-matching loop body of
`_extract_plant_names`. -/
def fuzzyStep (acc : List String) (w : String) : List String :=
  if w.length < 4 || stopwords.contains w then acc
  else
    match extractOne w dictKeys with
    | none => acc
    | some (k, n, d) =>
      -- `match[1] > 79` on the normalized similarity, exactly
      if n > 79 * d then (if acc.contains k then acc else acc ++ variantsOf k)
      else acc

/-- The fuzzy-matching loop of `_extract_plant_names` over the query words. -/
def fuzzyPhase : List String → List String → List String
  | [], acc => acc
  | w :: ws, acc => fuzzyPhase ws (fuzzyStep acc w)

/-- `BaseAgent._extract_plant_names`. The trailing Python `list(set(...))`
deduplicates with an unspecified iteration order; we deduplicate keeping
first occurrences, which has the same members. -/
def extractPlantNames (query : String) : List String :=
  let ql := pyLower query
  (fuzzyPhase (pySplit ql) (exactPhase ql)).dedup

/-! ## Database records and result validation -/

/-- One record (property dictionary) returned by the search backend.
Absent keys are `none`; each `get(key, default)` in the source becomes
`getD`. -/
structure DbRecord where
  botanical_name : Option String := none
  common_names : Option (List String) := none
  text_content : Option String := none
  pharmacological_activities : Option String := none
  traditional_uses : Option (List String) := none
  major_constituents : Option (List String) := none
  safety_info : Option String := none
  iucn_status : Option String := none
  threat_info : Option String := none
deriving DecidableEq, Repr

/-- The per-record match test of `_validate_results`: some extracted alias
occurs in the lowered botanical name or in a lowered common name. -/
def recMatches (plantNames : List String) (r : DbRecord) : Bool :=
  let bn := pyLower (r.botanical_name.getD "")
  let cns := (r.common_names.getD []).map pyLower
  plantNames.any (fun p => pyIn p bn || cns.any (fun c => pyIn p c))

/-- The warning attached to a non-matching record. -/
def warnFor (r : DbRecord) : String :=
  "Found information about " ++ r.botanical_name.getD "Unknown" ++
    " instead of requested plant"

/-- The fallback warning when validation would empty the result set.
Python joins `plant_names` coming from a `set`, whose iteration order is
unspecified; we fix first-occurrence order. -/
def noMatchWarning (plantNames : List String) : String :=
  "No direct matches found for \x27" ++ String.intercalate ", " plantNames ++
    "\x27. Showing semantically similar plants."

/-- The record loop of `_validate_results`: partitions records into the
validated list and one warning per non-matching record, preserving order. -/
def valLoop (plantNames : List String) : List DbRecord → List DbRecord × List String
  | [] => ([], [])
  | r :: rs =>
    let rest := valLoop plantNames rs
    if recMatches plantNames r then (r :: rest.1, rest.2)
    else (rest.1, warnFor r :: rest.2)

/-- `BaseAgent._validate_results`. -/
def validateResults (results : List DbRecord) (query : String) :
    List DbRecord × List String :=
  let plantNames := extractPlantNames query
  if plantNames = [] then (results, [])
  else
    let vw := valLoop plantNames results
    if vw.1 = [] ∧ results ≠ [] then (results, vw.2 ++ [noMatchWarning plantNames])
    else (if vw.1 = [] then results else vw.1, vw.2)

/-! ## Search cascade (`BaseAgent._search`, `_search_with_plant_filter`)

The Weaviate backend is an oracle: each query tier either returns records or
raises (`Except.error`). `connect` is the outcome of `_connect()`; a
completely unreachable data source is `connect = false`. The oracle is
deterministic, so a retry of the same call after a reconnect returns the
same outcome. -/

structure SearchEnv where
  connect : Bool
  nearText : String → Nat → Except Unit (List DbRecord)
  nearTextBotanical : String → String → Nat → Except Unit (List DbRecord)
  nearTextCommon : String → String → Nat → Except Unit (List DbRecord)
  bm25 : String → Nat → Except Unit (List DbRecord)

/-- The semantic-fallback validation loop inside `_search_with_plant_filter`:
keep hits mentioning an extracted name in botanical name, common names or
text content; stop once `limit` hits are kept. -/
def semanticValidLoop (plantNames : List String) (limit : Nat) :
    List DbRecord → List DbRecord → List DbRecord
  | [], acc => acc
  | h :: t, acc =>
    let bn := pyLower (h.botanical_name.getD "")
    let cns := (h.common_names.getD []).map pyLower
    let tc := pyLower (h.text_content.getD "")
    let acc' :=
      if plantNames.any (fun p => pyIn p bn || cns.any (fun c => pyIn p c) || pyIn p tc)
      then acc ++ [h] else acc
    if acc'.length ≥ limit then acc' else semanticValidLoop plantNames limit t acc'

/-- `BaseAgent._search_with_plant_filter`. -/
def searchWithPlantFilter (env : SearchEnv) (query : String)
    (plantNames : List String) (limit : Nat) : List DbRecord :=
  if !env.connect then []
  else
    -- tier 1: botanical-name "Like" filter, retried once after reconnect
    let exact := plantNames.flatMap (fun p =>
      match env.nearTextBotanical query p limit with
      | .ok l => l
      | .error _ =>
        if env.connect then
          match env.nearTextBotanical query p limit with
          | .ok l => l
          | .error _ => []
        else [])
    if exact ≠ [] then exact.take limit
    else
      -- tier 2: common-names "ContainsAny" filter (failures only logged)
      let common := plantNames.flatMap (fun p =>
        match env.nearTextCommon query p limit with
        | .ok l => l
        | .error _ => [])
      if common ≠ [] then common.take limit
      else
        -- tier 3: semantic search over twice the limit, locally validated;
        -- an exception here reaches the outer handler, which returns []
        match env.nearText query (limit * 2) with
        | .ok hits => semanticValidLoop plantNames limit hits []
        | .error _ => []

/-- `BaseAgent._search`. -/
def search (env : SearchEnv) (query : String) (limit : Nat) : List DbRecord :=
  if !env.connect then []
  else
    let plantNames := extractPlantNames query
    let filtered :=
      if plantNames ≠ [] then searchWithPlantFilter env query plantNames limit else []
    if plantNames ≠ [] ∧ filtered ≠ [] then filtered
    else
      match env.nearText query limit with
      | .ok l => l
      | .error _ =>
        -- reconnect and retry once, then BM25 fallback, then empty
        let retried := if env.connect then env.nearText query limit else .error ()
        match retried with
        | .ok l => l
        | .error _ =>
          match env.bm25 query limit with
          | .ok l => l
          | .error _ => []

/-! ## ResearchAgent and IUCNAgent -/

/-- One entry of the `results` list built by `ResearchAgent.process_query`. -/
structure PlantInfo where
  botanical_name : String
  common_names : List String
  traditional_uses : List String
  pharmacology : String
  major_constituents : List String
  safety_info : String
deriving DecidableEq, Repr

/-- One entry of the `results` list built by `IUCNAgent.process_query`. -/
structure IucnInfo where
  botanical_name : String
  common_names : List String
  iucn_status : String
  threat_info : String
deriving DecidableEq, Repr

/-- Response dictionary of `ResearchAgent.process_query`. The source never
puts an `error` key in it; the field records that absence as `none`. -/
structure ResearchResponse where
  agent : String
  results : List PlantInfo
  summary : String
  confidence : ℚ
  warnings : List String
  error : Option String := none
deriving DecidableEq, Repr

/-- Response dictionary of `IUCNAgent.process_query` (no `error` key). -/
structure IucnResponse where
  agent : String
  results : List IucnInfo
  summary : String
  confidence : ℚ
  warnings : List String
  error : Option String := none
deriving DecidableEq, Repr

/-- Field truncation in `ResearchAgent.process_query`. -/
def truncateAt (n : Nat) (s : String) : String :=
  if s.length > n then s.take n ++ "..." else s

/-- `ResearchAgent.process_query`. `confidence` is
`min(1, len(plants) / limit)`; the orchestrator always calls with the
default `limit = 5`. -/
def researchProcessQuery (env : SearchEnv) (query : String) (limit : Nat) :
    ResearchResponse :=
  let hits := search env query limit
  let vw := validateResults hits query
  let plants := vw.1.map (fun h =>
    { botanical_name := h.botanical_name.getD "Unknown"
      common_names := h.common_names.getD []
      traditional_uses := (h.traditional_uses.getD []).map (truncateAt 100)
      pharmacology := truncateAt 500 (h.pharmacological_activities.getD "")
      major_constituents := h.major_constituents.getD []
      safety_info := h.safety_info.getD "Not specified" })
  { agent := "ResearchAgent"
    results := plants
    summary := toString plants.length ++ " medicinal matches"
    confidence := min 1 ((plants.length : ℚ) / (limit : ℚ))
    warnings := vw.2
    error := none }

/-- `IUCNAgent.process_query`. -/
def iucnProcessQuery (env : SearchEnv) (query : String) (limit : Nat) :
    IucnResponse :=
  let hits := search env query limit
  let vw := validateResults hits query
  let plants := vw.1.map (fun h =>
    { botanical_name := h.botanical_name.getD "Unknown"
      common_names := h.common_names.getD []
      iucn_status := h.iucn_status.getD "Not Evaluated"
      threat_info := h.threat_info.getD "No specific threats identified" })
  { agent := "IUCNAgent"
    results := plants
    summary := toString plants.length ++ " conservation matches"
    confidence := min 1 ((plants.length : ℚ) / (limit : ℚ))
    warnings := vw.2
    error := none }

/-! ## GISAgent (`src/agents/gis_agent.py`) -/

/-- ASCII letter test, `[a-zA-Z]` of the fallback regex. -/
def isAsciiAlpha (c : Char) : Bool :=
  (97 ≤ c.toNat && c.toNat ≤ 122) || (65 ≤ c.toNat && c.toNat ≤ 90)

/-- Python regex word character (`\w`) over ASCII text. -/
def isWordChar (c : Char) : Bool :=
  isAsciiAlpha c || (48 ≤ c.toNat && c.toNat ≤ 57) || c = '_'

/-- Lexicographic order on code points, Python's `<` on strings. -/
def charListLt : List Char → List Char → Bool
  | [], [] => false
  | [], _ :: _ => true
  | _ :: _, [] => false
  | a :: as, b :: bs =>
    if a.toNat < b.toNat then true
    else if b.toNat < a.toNat then false
    else charListLt as bs

/-- Python `<=` on strings. -/
def pyStrLe (a b : String) : Bool := a = b || charListLt a.data b.data

/-- Stable insertion into an ascending list. -/
def insSorted (x : String) : List String → List String
  | [] => [x]
  | y :: ys => if pyStrLe x y then x :: y :: ys else y :: insSorted x ys

/-- Python `sorted()` on strings (ascending by code points). -/
def pySorted (l : List String) : List String := l.foldr insSorted []

/-- Python `str.title()` on ASCII text: a letter following a non-letter is
uppercased, every other letter lowered. -/
def pyTitleAux : Bool → List Char → List Char
  | _, [] => []
  | prevAlpha, c :: cs =>
    if isAsciiAlpha c then
      (if prevAlpha then c.toLower else c.toUpper) :: pyTitleAux true cs
    else c :: pyTitleAux false cs

def pyTitle (s : String) : String := ⟨pyTitleAux false s.data⟩

/-- `re.findall(r"\b([a-zA-Z]+(?: [a-zA-Z]+(?:-[a-zA-Z]+)?)?)\b", query)`:
left-to-right non-overlapping matches of one alphabetic run, optionally
followed by a space and a second run, optionally followed by a hyphen and a
third run, with word boundaries at both ends. `prevW` records whether the
previous character was a word character; `fuel` bounds the recursion (every
step consumes at least one character, so `length + 1` fuel is exact). -/
def gisFindallAux : Nat → Bool → List Char → List (List Char)
  | 0, _, _ => []
  | _ + 1, _, [] => []
  | fuel + 1, prevW, c :: cs =>
    if isAsciiAlpha c && !prevW then
      let r1 := (c :: cs).takeWhile isAsciiAlpha
      let rest1 := (c :: cs).dropWhile isAsciiAlpha
      match rest1 with
      | ' ' :: d :: ds =>
        if isAsciiAlpha d then
          let r2 := (d :: ds).takeWhile isAsciiAlpha
          let rest2 := (d :: ds).dropWhile isAsciiAlpha
          match rest2 with
          | '-' :: e :: es =>
            if isAsciiAlpha e then
              let r3 := (e :: es).takeWhile isAsciiAlpha
              let rest3 := (e :: es).dropWhile isAsciiAlpha
              if rest3.headD ' ' |> isWordChar then
                -- boundary after the third run fails: backtrack to the
                -- two-run match (the hyphen before rest2 is a boundary)
                (r1 ++ [' '] ++ r2) :: gisFindallAux fuel true rest2
              else (r1 ++ [' '] ++ r2 ++ ['-'] ++ r3) :: gisFindallAux fuel true rest3
            else
              if rest2.headD ' ' |> isWordChar then
                -- boundary after the second run fails: backtrack to the
                -- one-run match (the space before rest1 is a boundary)
                r1 :: gisFindallAux fuel true rest1
              else (r1 ++ [' '] ++ r2) :: gisFindallAux fuel true rest2
          | _ =>
            if rest2.headD ' ' |> isWordChar then
              r1 :: gisFindallAux fuel true rest1
            else (r1 ++ [' '] ++ r2) :: gisFindallAux fuel true rest2
        else
          if rest1.headD ' ' |> isWordChar then gisFindallAux fuel true rest1
          else r1 :: gisFindallAux fuel true rest1
      | _ =>
        if rest1.headD ' ' |> isWordChar then gisFindallAux fuel true rest1
        else r1 :: gisFindallAux fuel true rest1
    else gisFindallAux fuel (isWordChar c) cs

def gisFindall (query : String) : List String :=
  (gisFindallAux (query.data.length + 1) false query.data).map (fun l => ⟨l⟩)

/-- The expanded stopword set local to `GISAgent.process_query`. -/
def gisStopwords : List String :=
  ["where", "what", "when", "how", "why", "does", "is", "are", "can",
   "could", "would", "find", "show", "give", "tell", "say", "know",
   "location", "map", "district", "place", "which", "the", "a", "an", "in",
   "on", "at", "from", "to", "and", "or", "but", "with", "plant", "tree",
   "flower", "herb", "shrub", "weed", "seed", "fruit", "leaf", "root",
   "stem", "grown", "found", "grow", "exist", "live", "specification",
   "specify", "about", "me", "us", "detail", "details", "info",
   "information", "description", "describe", "uses", "medical", "medicine",
   "medicinal", "family", "unknown", "name", "botanical", "common"]

/-- The regex fallback of `GISAgent.process_query`: keep matches whose first
word, lowered, is not a GIS stopword. -/
def gisFallbackExtract (query : String) : List String :=
  (gisFindall query).filter
    (fun m => !(gisStopwords.contains (pyLower ((pySplit m).headD ""))))

/-- One object of the `GISLocation` collection. -/
structure GisObj where
  district : Option String := none
  soils : Option String := none
deriving DecidableEq, Repr

/-- One entry of the `results` list built by `GISAgent.process_query`. -/
structure DistrictInfo where
  district : String
  soils : String
deriving DecidableEq, Repr

/-- Response dictionary of `GISAgent.process_query` (the `error` key is
present exactly on the critical-failure path). -/
structure GisResponse where
  agent : Option String := none
  error : Option String := none
  results : List DistrictInfo
  summary : String
deriving DecidableEq, Repr

/-- Backend oracle for the GIS agent. `getCollection` models
`weaviate_manager.client.collections.get(...)` (raising with the given
message when no client connection can be established); `fetchObjects` the
`contains_any` filter over the `plants` property; `bm25` its fallback. -/
structure GisEnv where
  getCollection : Except String Unit
  fetchObjects : List String → Except String (List GisObj)
  bm25 : String → Except String (List GisObj)

/-- The plant-name extraction of `GISAgent.process_query`: the shared
extractor, then the local regex fallback. -/
def gisPlantNames (query : String) : List String :=
  let names := extractPlantNames query
  if names = [] then
    let filtered := gisFallbackExtract query
    if filtered ≠ [] then filtered else names
  else names

/-- `GISAgent.process_query`. The Python `list(set(...))` on the search
terms has unspecified order; we keep first occurrences. -/
def gisProcessQuery (env : GisEnv) (query : String) : GisResponse :=
  let body : Except String GisResponse := do
    let plantNames := gisPlantNames query
    let targetPlant := plantNames.headD query
    let _ ← env.getCollection
    let candidates := if plantNames ≠ [] then plantNames else [query]
    let searchTerms := (candidates.flatMap (fun c => [pyLower c, pyTitle c])).dedup
    -- inner try: a failing backend call only logs, leaving results empty
    let objs : List GisObj :=
      match (do
          let r ← env.fetchObjects searchTerms
          if r.isEmpty then env.bm25 query else pure r : Except String (List GisObj)) with
      | .ok l => l
      | .error _ => []
    let results : List DistrictInfo := objs.filterMap (fun o =>
      match o.district with
      | some d => if d ≠ "" then some ⟨d, o.soils.getD "Unknown"⟩ else none
      | none => none)
    let summary :=
      if results = [] then
        "No specific district data found for \x27" ++ targetPlant ++
          "\x27 in the database."
      else
        let uniq := pySorted (results.map (·.district)).dedup
        let dstr :=
          if uniq.length > 10 then
            String.intercalate ", " (uniq.take 10) ++ " and " ++
              toString (uniq.length - 10) ++ " others"
          else String.intercalate ", " uniq
        "Found \x27" ++ targetPlant ++ "\x27 in " ++ toString uniq.length ++
          " districts: " ++ dstr ++ "."
    pure { agent := some "GISAgent", error := none, results := results, summary := summary }
  match body with
  | .ok r => r
  | .error e =>
    { agent := none, error := some e, results := [],
      summary := "GIS Search failed due to internal error." }

/-! ## Orchestrator (`src/agents/super_agents.py`)

The orchestrator treats worker responses as dictionaries, reading only the
`results` key and, inside a result entry, the `botanical_name` key; the
worker outputs are therefore modelled at that projection. The language
model is an oracle parameter. -/

/-- A result entry as seen by the orchestrator's context injection. -/
structure ORecord where
  botanical_name : Option String := none
deriving DecidableEq, Repr

/-- A worker response as seen by the orchestrator (every worker response
dictionary carries a `results` key). -/
structure OResult where
  results : List ORecord
deriving DecidableEq, Repr

/-- The LangGraph `AgentState` (the `chat_history` messages are
(type, content) pairs). -/
structure AgentState where
  question : String
  chat_history : List (String × String)
  plan : List String
  current_step_index : Nat
  research_data : List OResult
  gis_data : List OResult
  iucn_data : List OResult
  errors : List String
  retry_count : Nat
  final_answer : String
deriving DecidableEq, Repr

/-- The initial state assembled by `SuperAgent.query`. -/
def initState (question : String) : AgentState :=
  { question := question, chat_history := [], plan := [],
    current_step_index := 0, research_data := [], gis_data := [],
    iucn_data := [], errors := [], retry_count := 0, final_answer := "" }

/-- The context-injection step shared by the three agent nodes:
`state["research_data"][-1].get("results", [{}])[0].get("botanical_name")`.
Indexing `[0]` raises `IndexError` when the last accumulated result has an
empty `results` list (the `[{}]` default only covers a missing key, which
never occurs for worker-built results). -/
def injectedQuery (researchData : List OResult) (query : String) :
    Except Unit String :=
  match researchData.getLast? with
  | none => .ok query
  | some last =>
    match last.results with
    | [] => .error ()
    | p :: _ =>
      match p.botanical_name with
      | none => .ok query
      | some lastPlant =>
        if lastPlant ≠ "" && !(pyIn lastPlant query) then
          .ok (query ++ " " ++ lastPlant)
        else .ok query

/-- `SuperAgent._research_node`. `Except.error` marks an uncaught Python
exception (IndexError from `plan[idx]` or from context injection). -/
def researchNode (worker : String → OResult) (s : AgentState) :
    Except Unit AgentState :=
  match s.plan[s.current_step_index]? with
  | none => .error ()
  | some step => do
    let query ← injectedQuery s.research_data step
    let result := worker query
    if result.results = [] ∧ s.retry_count < 1 then
      .ok { s with plan := s.plan.set s.current_step_index (query ++ " medicinal plant")
                 , retry_count := s.retry_count + 1 }
    else
      .ok { s with research_data := s.research_data ++ [result]
                 , current_step_index := s.current_step_index + 1
                 , retry_count := 0 }

/-- `SuperAgent._gis_node`: context injection, one call, unconditional
append and advance (no retry logic). -/
def gisNode (worker : String → OResult) (s : AgentState) :
    Except Unit AgentState :=
  match s.plan[s.current_step_index]? with
  | none => .error ()
  | some step => do
    let query ← injectedQuery s.research_data step
    let result := worker query
    .ok { s with gis_data := s.gis_data ++ [result]
               , current_step_index := s.current_step_index + 1
               , retry_count := 0 }

/-- `SuperAgent._iucn_node`: same shape as the GIS node. -/
def iucnNode (worker : String → OResult) (s : AgentState) :
    Except Unit AgentState :=
  match s.plan[s.current_step_index]? with
  | none => .error ()
  | some step => do
    let query ← injectedQuery s.research_data step
    let result := worker query
    .ok { s with iucn_data := s.iucn_data ++ [result]
               , current_step_index := s.current_step_index + 1
               , retry_count := 0 }

/-- Outcome of the planner's language-model call and JSON parsing:
either the call raised, or the content had no `[`, or `json.loads` raised,
or a list of step strings was parsed. -/
inductive PlanParse where
  | parsed (steps : List String)
  | noBracket
  | badJson
  | callFailed
deriving DecidableEq, Repr

/-- The plan produced by the try/except parse block of `_planner_node`. -/
def plannerParsedPlan (question : String) : PlanParse → List String
  | .parsed steps => steps
  | _ => [question]

/-- The location keywords of the planner's GIS heuristic. -/
def locKeywords : List String :=
  ["where", "location", "map", "grow", "district", "place"]

/-- The fast-path condition: fewer than 8 whitespace-separated words and no
occurrence of a coordinating-conjunction substring in the lowered
question. -/
def fastPathCond (question : String) : Bool :=
  (pySplit question).length < 8 &&
    !(["and", "also", "compare"].any (fun k => pyIn k (pyLower question)))

/-- The fast-path plan: the question itself, plus a location step when a
location keyword occurs in the lowered question. -/
def fastPlan (question : String) : List String :=
  let plan := [question]
  if locKeywords.any (fun k => pyIn k (pyLower question)) then
    plan ++ ["Find location and habitat data for: " ++ question]
  else plan

/-- `SuperAgent._planner_node`. Returns the state update, or `none` when
the function falls off the end and returns Python `None` (which LangGraph
treats as no state update): on the slow path this happens whenever the
parsed plan is non-empty — including every parse-failure fallback
`plan = [question]` — because the final `return` block sits inside
`if not plan:`. -/
def plannerNode (llm : PlanParse) (s : AgentState) : Option AgentState :=
  if fastPathCond s.question then
    some { s with plan := fastPlan s.question, current_step_index := 0,
                  errors := [], retry_count := 0 }
  else
    if plannerParsedPlan s.question llm = [] then
      -- only reachable when the model returned a parseable empty list
      some { s with plan := fastPlan s.question, current_step_index := 0,
                    errors := [], retry_count := 0 }
    else none

/-- LangGraph applies a `None` node return as "no update". -/
def planApply (llm : PlanParse) (s : AgentState) : AgentState :=
  (plannerNode llm s).getD s

/-- Routing targets of `_route_decision`. -/
inductive Route where
  | research
  | gis
  | iucn
  | synthesize
deriving DecidableEq, Repr

/-- The GIS keyword heuristic of `_route_decision`. -/
def routeGisKeywords : List String :=
  ["where", "location", "region", "habitat", "distribution", "grow"]

/-- `SuperAgent._route_decision`. `llmChoice` is the routing model's reply
(`none` when the call raised, defaulting to `"RESEARCH"`). -/
def routeDecision (llmChoice : Option String) (s : AgentState) : Route :=
  if s.plan.length ≤ s.current_step_index then .synthesize
  else
    let step := s.plan.getD s.current_step_index ""
    let stepLower := pyLower step
    if routeGisKeywords.any (fun k => pyIn k stepLower) then .gis
    else
      let choice :=
        match llmChoice with
        | some c => pyUpper (pyStrip c)
        | none => "RESEARCH"
      if pyIn "GIS" choice then .gis
      else if pyIn "IUCN" choice then .iucn
      else .research

/-- `SuperAgent._synthesizer_node`, projected to its state update: it only
writes `final_answer` and appends the turn to the chat history (the answer
text comes from the synthesis model, an oracle here). -/
def synthApply (finalData answer : String) (s : AgentState) : AgentState :=
  { s with final_answer := finalData
         , chat_history := s.chat_history ++ [("human", s.question), ("system", answer)] }

/-- The graph nodes. -/
inductive Phase where
  | planner
  | router
  | research
  | gis
  | iucn
  | synth
  | done
deriving DecidableEq, Repr

/-- The node a routing decision dispatches to. -/
def routePhase : Route → Phase
  | .research => .research
  | .gis => .gis
  | .iucn => .iucn
  | .synthesize => .synth

/-- One transition of the compiled LangGraph. The language model and the
workers are chosen arbitrarily at every step; an agent node with an
uncaught exception has no successor. -/
inductive GraphStep : Phase × AgentState → Phase × AgentState → Prop where
  | planner (llm : PlanParse) (s : AgentState) :
      GraphStep (.planner, s) (.router, planApply llm s)
  | route (llmChoice : Option String) (s : AgentState) :
      GraphStep (.router, s) (routePhase (routeDecision llmChoice s), s)
  | research (worker : String → OResult) (s s' : AgentState) :
      researchNode worker s = .ok s' → GraphStep (.research, s) (.router, s')
  | gis (worker : String → OResult) (s s' : AgentState) :
      gisNode worker s = .ok s' → GraphStep (.gis, s) (.router, s')
  | iucn (worker : String → OResult) (s s' : AgentState) :
      iucnNode worker s = .ok s' → GraphStep (.iucn, s) (.router, s')
  | synth (finalData answer : String) (s : AgentState) :
      GraphStep (.synth, s) (.done, synthApply finalData answer s)

/-- States reachable within one invocation of `SuperAgent.query` (the
checkpointer may supply a previous chat history). -/
inductive GraphReachable : Phase × AgentState → Prop where
  | init (question : String) (history : List (String × String)) :
      GraphReachable (.planner, { initState question with chat_history := history })
  | step {g g' : Phase × AgentState} :
      GraphReachable g → GraphStep g g' → GraphReachable g'

deriving instance DecidableEq for Except

/-! ## Auxiliary concrete data and spec-side metrics -/

/-- The standard Levenshtein edit distance (insert, delete, substitute),
the metric referenced by the spec's "one-character edit distance" claim.
It is not part of the source, which scores with normalized InDel
similarity (`fuzzScore`); it is needed only to state that claim. -/
def levenshteinAux : Nat → List Char → List Char → Nat
  | 0, _, _ => 0
  | _ + 1, [], ys => ys.length
  | _ + 1, x :: xs, [] => (x :: xs).length
  | fuel + 1, x :: xs, y :: ys =>
    if x = y then levenshteinAux fuel xs ys
    else 1 + min (levenshteinAux fuel xs (y :: ys))
            (min (levenshteinAux fuel (x :: xs) ys) (levenshteinAux fuel xs ys))

def levenshtein (a b : List Char) : Nat :=
  levenshteinAux (a.length + b.length) a b

/-- A search backend that is completely unreachable: connecting fails and
every call raises. -/
def deadSearchEnv : SearchEnv :=
  { connect := false
    nearText := fun _ _ => .error ()
    nearTextBotanical := fun _ _ _ => .error ()
    nearTextCommon := fun _ _ _ => .error ()
    bm25 := fun _ _ => .error () }

/-- The GIS backend when no client connection can be established:
`weaviate_manager.client` stays `None` and the attribute access raises. -/
def deadGisEnv : GisEnv :=
  { getCollection := .error "\x27NoneType\x27 object has no attribute \x27collections\x27"
    fetchObjects := fun _ => .error "no client"
    bm25 := fun _ => .error "no client" }

/-- A worker whose search always comes back empty. -/
def emptyWorker : String → OResult := fun _ => ⟨[]⟩

/-- A worker that records the query it was called with. -/
def echoWorker : String → OResult := fun q => ⟨[⟨some q⟩]⟩

/-! # Theorems -/

/-- Claim C10: whenever `_extract_plant_names` finds no plant name in the
query, `_validate_results` returns its input record list unchanged with an
empty warning list. -/
theorem validate_results_identity_without_names
    (results : List DbRecord) (query : String)
    (h : extractPlantNames query = []) :
    validateResults results query = (results, []) := by
  simp [validateResults, h]

theorem validate_results_identity_without_names_witness :
    extractPlantNames "hello" = [] ∧
    validateResults [{ botanical_name := some "Azadirachta indica",
                       common_names := some ["neem"] }] "hello" =
      ([{ botanical_name := some "Azadirachta indica",
          common_names := some ["neem"] }], []) :=
  ⟨by decide,
   validate_results_identity_without_names _ "hello" (by decide)⟩

/-- Claim C3 (code bug): on the slow planning path the parsed non-empty
plan is discarded — `_planner_node` falls off the end and returns `None`,
so the state keeps its initial empty plan; the same happens for the
parse-failure fallback `[question]`. The claim (and the repository's own
`test_planner_node`) expects the parsed plan with `current_step_index` 0. -/
theorem planner_slow_path_returns_no_update :
    plannerNode (.parsed ["Identify plant", "Find habitat"])
      (initState "What are the medicinal uses and habitat of Tulsi") = none ∧
    plannerNode .callFailed
      (initState "What are the medicinal uses and habitat of Tulsi") = none ∧
    (planApply (.parsed ["Identify plant", "Find habitat"])
      (initState "What are the medicinal uses and habitat of Tulsi")).plan = [] := by
  decide

/-- Claim C2 (code bug): the context-injection expression
`research_data[-1].get("results", [{}])[0]` raises `IndexError` whenever
the most recently accumulated research result has an empty `results` list
(which a twice-failed step produces), so `query` can propagate an
exception instead of returning an answer string. -/
theorem context_injection_raises_on_empty_results :
    injectedQuery [⟨[]⟩] "Find habitat" = .error () ∧
    researchNode emptyWorker
      { initState "What is the xyzzy plant and where does it grow" with
        plan := ["Identify the xyzzy plant medicinal plant", "Find habitat"],
        current_step_index := 1,
        research_data := [⟨[]⟩] } = .error () ∧
    gisNode emptyWorker
      { initState "What is the xyzzy plant and where does it grow" with
        plan := ["Identify the xyzzy plant medicinal plant", "Find habitat"],
        current_step_index := 1,
        research_data := [⟨[]⟩] } = .error () := by
  decide

/-- Claim C5: a question with fewer than 8 words and no occurrence of
"and"/"also"/"compare" takes the fast path for every language-model
behaviour: the plan is exactly `[question]`, extended with the
location/habitat step exactly when a location keyword occurs. -/
theorem planner_fast_path (llm : PlanParse) (s : AgentState)
    (hlen : (pySplit s.question).length < 8)
    (hconj : ∀ k ∈ (["and", "also", "compare"] : List String),
      pyIn k (pyLower s.question) = false) :
    plannerNode llm s =
      some { s with
        plan :=
          if locKeywords.any (fun k => pyIn k (pyLower s.question)) then
            [s.question, "Find location and habitat data for: " ++ s.question]
          else [s.question],
        current_step_index := 0, errors := [], retry_count := 0 } := by
  have hand := hconj "and" (by simp)
  have halso := hconj "also" (by simp)
  have hcomp := hconj "compare" (by simp)
  simp [plannerNode, fastPathCond, fastPlan, hlen, hand, halso, hcomp]

theorem planner_fast_path_witness :
    plannerNode .callFailed (initState "Where does tulsi grow") =
      some { initState "Where does tulsi grow" with
        plan := ["Where does tulsi grow",
                 "Find location and habitat data for: Where does tulsi grow"],
        current_step_index := 0, errors := [], retry_count := 0 } := by
  have h := planner_fast_path .callFailed (initState "Where does tulsi grow")
    (by decide) (by decide)
  rw [h]
  decide

lemma strData_append (a b : String) : (a ++ b).data = a.data ++ b.data := by
  cases a; cases b; rfl

lemma exceptBind_ok {ε α β : Type} (a : α) (f : α → Except ε β) :
    (Except.ok a >>= f) = f a := rfl

lemma pyIn_of_isInfix {needle hay : String}
    (h : List.IsInfix needle.data hay.data) : pyIn needle hay = true :=
  decide_eq_true h

/-- Every successful context injection extends the step text on the right. -/
lemma injectedQuery_extends (rd : List OResult) (step q : String)
    (h : injectedQuery rd step = .ok q) : ∃ t, q = step ++ t := by
  unfold injectedQuery at h
  split at h
  · cases h; exact ⟨"", by simp⟩
  · split at h
    · exact Except.noConfusion h
    · split at h
      · cases h; exact ⟨"", by simp⟩
      next n _ =>
        split at h
        · cases h; exact ⟨" " ++ n, (String.append_assoc step " " n)⟩
        · cases h; exact ⟨"", by simp⟩

/-- A string is a substring of itself followed by anything. -/
lemma pyIn_self_append (a t : String) : pyIn a (a ++ t) = true := by
  apply pyIn_of_isInfix
  rw [strData_append]
  exact ⟨[], t.data, by simp⟩

/-- Claim C1 (counterexample): in `_gis_node`, an empty agent result with
retry counter 0 is appended as-is and the cursor advances — no rewrite, no
retry. The same code shape refutes the claim for `_iucn_node`. -/
theorem gis_node_ignores_empty_result_with_retry_budget :
    (emptyWorker "Where does tulsi grow").results = [] ∧
    gisNode emptyWorker
      { initState "Where does tulsi grow" with plan := ["Where does tulsi grow"] } =
      .ok { initState "Where does tulsi grow" with
              plan := ["Where does tulsi grow"],
              gis_data := [⟨[]⟩],
              current_step_index := 1,
              retry_count := 0 } := by
  decide

/-- Claim C1 (amended): only `_research_node` retries a zero-result step —
rewriting the step in place to a strict extension containing the original
text, moving the retry counter from 0 to 1 and keeping the cursor; on a
non-empty result or an exhausted budget it appends, advances by one and
resets the counter. `_gis_node` and `_iucn_node` unconditionally append,
advance and reset. -/
theorem domain_node_retry_behaviour
    (wr wg wi : String → OResult) (s : AgentState) (step q : String)
    (hstep : s.plan[s.current_step_index]? = some step)
    (hinj : injectedQuery s.research_data step = .ok q) :
    ((wr q).results = [] → s.retry_count = 0 →
      researchNode wr s =
        .ok { s with
          plan := s.plan.set s.current_step_index (q ++ " medicinal plant"),
          retry_count := 1 } ∧
      pyIn step (q ++ " medicinal plant") = true)
    ∧ ((wr q).results ≠ [] ∨ 1 ≤ s.retry_count →
      researchNode wr s =
        .ok { s with
          research_data := s.research_data ++ [wr q],
          current_step_index := s.current_step_index + 1,
          retry_count := 0 })
    ∧ gisNode wg s =
        .ok { s with
          gis_data := s.gis_data ++ [wg q],
          current_step_index := s.current_step_index + 1,
          retry_count := 0 }
    ∧ iucnNode wi s =
        .ok { s with
          iucn_data := s.iucn_data ++ [wi q],
          current_step_index := s.current_step_index + 1,
          retry_count := 0 } := by
  obtain ⟨t, ht⟩ := injectedQuery_extends _ _ _ hinj
  refine ⟨fun hw hr => ⟨?_, ?_⟩, fun h => ?_, ?_, ?_⟩
  · simp [researchNode, hstep, hinj, exceptBind_ok, hw, hr]
  · rw [ht, String.append_assoc]
    exact pyIn_self_append step (t ++ " medicinal plant")
  · have hc : ¬((wr q).results = [] ∧ s.retry_count < 1) := by
      rcases h with h | h
      · exact fun hc => h hc.1
      · exact fun hc => by omega
    simp only [researchNode, hstep, hinj, exceptBind_ok]
    rw [if_neg hc]
  · simp [gisNode, hstep, hinj, exceptBind_ok]
  · simp [iucnNode, hstep, hinj, exceptBind_ok]

theorem domain_node_retry_behaviour_witness :
    researchNode emptyWorker
      { initState "Benefits of xyzzy" with plan := ["Benefits of xyzzy"] } =
      .ok { initState "Benefits of xyzzy" with
              plan := ["Benefits of xyzzy medicinal plant"],
              retry_count := 1 } ∧
    pyIn "Benefits of xyzzy" "Benefits of xyzzy medicinal plant" = true :=
  (domain_node_retry_behaviour emptyWorker emptyWorker emptyWorker
      { initState "Benefits of xyzzy" with plan := ["Benefits of xyzzy"] }
      "Benefits of xyzzy" "Benefits of xyzzy" (by decide) (by decide)).1
    (by decide) (by decide)

/-- Claim C6 (counterexample): context injection reads only the LAST
accumulated research result. With an earlier result naming "Artemisia" and
a later one naming "Ocimum sanctum", a geography step not mentioning
"Artemisia" is passed to the geography agent without "Artemisia". -/
theorem gis_injection_ignores_earlier_results :
    (∃ r ∈ ([⟨[⟨some "Artemisia"⟩]⟩, ⟨[⟨some "Ocimum sanctum"⟩]⟩] : List OResult),
      ∃ p ∈ r.results, p.botanical_name = some "Artemisia") ∧
    pyIn "Artemisia" "Find habitat" = false ∧
    gisNode echoWorker
      { initState "w" with
          plan := ["Find habitat"],
          research_data := [⟨[⟨some "Artemisia"⟩]⟩, ⟨[⟨some "Ocimum sanctum"⟩]⟩] } =
      .ok { initState "w" with
              plan := ["Find habitat"],
              research_data := [⟨[⟨some "Artemisia"⟩]⟩, ⟨[⟨some "Ocimum sanctum"⟩]⟩],
              gis_data := [⟨[⟨some "Find habitat Ocimum sanctum"⟩]⟩],
              current_step_index := 1 } ∧
    pyIn "Artemisia" "Find habitat Ocimum sanctum" = false := by
  decide

/-- Claim C6 (amended): when the MOST RECENT accumulated research result
names "Artemisia" and the current step text does not contain it, the query
passed to the geography agent is the step extended with " Artemisia", which
contains "Artemisia". -/
theorem gis_injection_appends_latest_name
    (rd : List OResult) (step : String) (lr : OResult) (p : ORecord)
    (rest : List ORecord)
    (hlast : rd.getLast? = some lr)
    (hres : lr.results = p :: rest)
    (hname : p.botanical_name = some "Artemisia")
    (hnotin : pyIn "Artemisia" step = false) :
    injectedQuery rd step = .ok (step ++ " " ++ "Artemisia") ∧
    pyIn "Artemisia" (step ++ " " ++ "Artemisia") = true := by
  constructor
  · simp [injectedQuery, hlast, hres, hname, hnotin]
  · apply pyIn_of_isInfix
    rw [strData_append]
    exact ⟨(step ++ " ").data, [], by simp⟩

theorem gis_injection_appends_latest_name_witness :
    injectedQuery [⟨[⟨some "Artemisia"⟩]⟩] "Find habitat" =
      .ok ("Find habitat" ++ " " ++ "Artemisia") ∧
    pyIn "Artemisia" ("Find habitat" ++ " " ++ "Artemisia") = true :=
  gis_injection_appends_latest_name [⟨[⟨some "Artemisia"⟩]⟩] "Find habitat"
    ⟨[⟨some "Artemisia"⟩]⟩ ⟨some "Artemisia"⟩ [] (by decide) (by decide)
    (by decide) (by decide)

/-- The record loop is a filter of the matching records together with one
warning per non-matching record. -/
lemma valLoop_spec (pn : List String) (rs : List DbRecord) :
    valLoop pn rs = (rs.filter (recMatches pn),
      (rs.filter (fun r => !(recMatches pn r))).map warnFor) := by
  induction rs with
  | nil => rfl
  | cons r rs ih =>
    cases h : recMatches pn r <;>
      simp [valLoop, ih, h, List.filter_cons]

/-- Claim C7: with a non-empty record list and at least one extracted
alias, `_validate_results` keeps exactly the records whose botanical name
or common-name list contains an extracted alias, warning once per
non-matching record; if nothing matches it returns the input unchanged
with the per-record warnings plus the no-direct-matches warning — and the
returned record list is never empty. -/
theorem validate_results_never_empties (results : List DbRecord) (query : String)
    (hres : results ≠ []) (hpn : extractPlantNames query ≠ []) :
    (validateResults results query =
      if results.filter (recMatches (extractPlantNames query)) = [] then
        (results, (results.map warnFor) ++ [noMatchWarning (extractPlantNames query)])
      else
        (results.filter (recMatches (extractPlantNames query)),
         (results.filter (fun r => !(recMatches (extractPlantNames query) r))).map warnFor))
    ∧ (validateResults results query).1 ≠ [] := by
  have hval := valLoop_spec (extractPlantNames query) results
  by_cases hf : results.filter (recMatches (extractPlantNames query)) = []
  · have hall : ∀ r ∈ results, ¬(recMatches (extractPlantNames query) r = true) := by
      simpa [List.filter_eq_nil_iff] using hf
    have hnot : results.filter (fun r => !(recMatches (extractPlantNames query) r)) = results := by
      rw [List.filter_eq_self]
      intro r hr
      simp [hall r hr]
    constructor
    · simp only [validateResults, hpn, if_neg, hval, hf, hnot, if_pos]
      simp [hf, hres]
    · simp [validateResults, hpn, hval, hf, hres]
  · constructor
    · simp only [validateResults, hpn, if_neg, hval, hf]
      simp [hf, hres]
    · simp [validateResults, hpn, hval, hf, hres]

theorem validate_results_never_empties_witness :
    validateResults [{ botanical_name := some "Azadirachta indica",
                       common_names := some ["neem"] }] "Tell me about tulsi" =
      ([{ botanical_name := some "Azadirachta indica",
          common_names := some ["neem"] }],
       ["Found information about Azadirachta indica instead of requested plant",
        noMatchWarning (extractPlantNames "Tell me about tulsi")]) ∧
    (validateResults [{ botanical_name := some "Azadirachta indica",
                        common_names := some ["neem"] }] "Tell me about tulsi").1 ≠ [] := by
  have h := validate_results_never_empties
    [{ botanical_name := some "Azadirachta indica", common_names := some ["neem"] }]
    "Tell me about tulsi" (by decide) (by decide)
  refine ⟨?_, h.2⟩
  rw [h.1]
  decide

lemma exceptBind_err {ε α β : Type} (e : ε) (f : α → Except ε β) :
    ((Except.error e : Except ε α) >>= f) = Except.error e := rfl

/-- An unreachable backend makes the cascade return no records. -/
lemma search_dead (env : SearchEnv) (q : String) (limit : Nat)
    (hconn : env.connect = false) : search env q limit = [] := by
  simp [search, hconn]

/-- Validating an empty record list yields no records and no warnings. -/
lemma validate_nil (q : String) : validateResults [] q = ([], []) := by
  simp [validateResults, valLoop]

/-- Claim C8 (counterexample): with a completely unreachable data source,
`ResearchAgent.process_query` and `IUCNAgent.process_query` return
responses with no error field and the plain zero-match summaries rather
than an apologetic error result. -/
theorem research_unreachable_has_no_error_field :
    (researchProcessQuery deadSearchEnv "uses of tulsi" 5).error = none ∧
    (researchProcessQuery deadSearchEnv "uses of tulsi" 5).summary =
      "0 medicinal matches" ∧
    (iucnProcessQuery deadSearchEnv "uses of tulsi" 5).error = none ∧
    (iucnProcessQuery deadSearchEnv "uses of tulsi" 5).summary =
      "0 conservation matches" := by
  refine ⟨rfl, ?_, rfl, ?_⟩ <;> decide

/-- Claim C8 (amended): with a completely unreachable data source the GIS
agent returns a response with an explicit error field and the apologetic
summary and does not raise, while the research and conservation agents
return (without raising) a normal response with empty results, the
zero-match summary, zero confidence, no warnings and no error field. -/
theorem unreachable_source_responses (env : SearchEnv) (genv : GisEnv)
    (q : String) (limit : Nat) (msg : String)
    (_hlim : 0 < limit)
    (hconn : env.connect = false)
    (hcol : genv.getCollection = .error msg) :
    researchProcessQuery env q limit =
      { agent := "ResearchAgent", results := [], summary := "0 medicinal matches",
        confidence := 0, warnings := [], error := none } ∧
    iucnProcessQuery env q limit =
      { agent := "IUCNAgent", results := [], summary := "0 conservation matches",
        confidence := 0, warnings := [], error := none } ∧
    gisProcessQuery genv q =
      { agent := none, error := some msg, results := [],
        summary := "GIS Search failed due to internal error." } := by
  have hs := search_dead env q limit hconn
  refine ⟨?_, ?_, ?_⟩
  · simp [researchProcessQuery, hs, validate_nil]
    decide
  · simp [iucnProcessQuery, hs, validate_nil]
    decide
  · simp [gisProcessQuery, hcol, exceptBind_err]

theorem unreachable_source_responses_witness :
    researchProcessQuery deadSearchEnv "where does tulsi grow" 5 =
      { agent := "ResearchAgent", results := [], summary := "0 medicinal matches",
        confidence := 0, warnings := [], error := none } ∧
    gisProcessQuery deadGisEnv "where does tulsi grow" =
      { agent := none,
        error := some "\x27NoneType\x27 object has no attribute \x27collections\x27",
        results := [],
        summary := "GIS Search failed due to internal error." } :=
  ⟨(unreachable_source_responses deadSearchEnv deadGisEnv "where does tulsi grow"
      5 "\x27NoneType\x27 object has no attribute \x27collections\x27"
      (by decide) (by decide) (by decide)).1,
   (unreachable_source_responses deadSearchEnv deadGisEnv "where does tulsi grow"
      5 "\x27NoneType\x27 object has no attribute \x27collections\x27"
      (by decide) (by decide) (by decide)).2.2⟩

/-- A planner update always resets the cursor to 0. -/
lemma plannerNode_idx (llm : PlanParse) (s u : AgentState)
    (h : plannerNode llm s = some u) : u.current_step_index = 0 := by
  unfold plannerNode at h
  split at h
  · cases h; rfl
  · split at h
    · cases h; rfl
    · exact Option.noConfusion h

/-- A successful research node call starts below the plan length and
either keeps the cursor with the plan length unchanged (retry) or advances
by exactly one with the plan unchanged. -/
lemma researchNode_ok_cases (w : String → OResult) (s s' : AgentState)
    (h : researchNode w s = .ok s') :
    s.current_step_index < s.plan.length ∧
    ((s'.current_step_index = s.current_step_index ∧
        s'.plan.length = s.plan.length) ∨
      (s'.current_step_index = s.current_step_index + 1 ∧ s'.plan = s.plan)) := by
  unfold researchNode at h
  cases hg : s.plan[s.current_step_index]? with
  | none => rw [hg] at h; exact Except.noConfusion h
  | some step =>
    simp only [hg] at h
    have hlt : s.current_step_index < s.plan.length := by
      by_contra hle
      rw [List.getElem?_eq_none (by omega)] at hg
      exact Option.noConfusion hg
    refine ⟨hlt, ?_⟩
    cases hi : injectedQuery s.research_data step with
    | error e =>
      simp only [hi, exceptBind_err] at h
      exact Except.noConfusion h
    | ok q =>
      simp only [hi, exceptBind_ok] at h
      split at h
      · cases h; exact Or.inl ⟨rfl, by simp⟩
      · cases h; exact Or.inr ⟨rfl, rfl⟩

/-- A successful GIS node call starts below the plan length and advances by
exactly one, plan unchanged. -/
lemma gisNode_ok_cases (w : String → OResult) (s s' : AgentState)
    (h : gisNode w s = .ok s') :
    s.current_step_index < s.plan.length ∧
      s'.current_step_index = s.current_step_index + 1 ∧ s'.plan = s.plan := by
  unfold gisNode at h
  cases hg : s.plan[s.current_step_index]? with
  | none => rw [hg] at h; exact Except.noConfusion h
  | some step =>
    simp only [hg] at h
    have hlt : s.current_step_index < s.plan.length := by
      by_contra hle
      rw [List.getElem?_eq_none (by omega)] at hg
      exact Option.noConfusion hg
    cases hi : injectedQuery s.research_data step with
    | error e =>
      simp only [hi, exceptBind_err] at h
      exact Except.noConfusion h
    | ok q =>
      simp only [hi, exceptBind_ok] at h
      cases h
      exact ⟨hlt, rfl, rfl⟩

/-- Same shape for the conservation node. -/
lemma iucnNode_ok_cases (w : String → OResult) (s s' : AgentState)
    (h : iucnNode w s = .ok s') :
    s.current_step_index < s.plan.length ∧
      s'.current_step_index = s.current_step_index + 1 ∧ s'.plan = s.plan := by
  unfold iucnNode at h
  cases hg : s.plan[s.current_step_index]? with
  | none => rw [hg] at h; exact Except.noConfusion h
  | some step =>
    simp only [hg] at h
    have hlt : s.current_step_index < s.plan.length := by
      by_contra hle
      rw [List.getElem?_eq_none (by omega)] at hg
      exact Option.noConfusion hg
    cases hi : injectedQuery s.research_data step with
    | error e =>
      simp only [hi, exceptBind_err] at h
      exact Except.noConfusion h
    | ok q =>
      simp only [hi, exceptBind_ok] at h
      cases h
      exact ⟨hlt, rfl, rfl⟩

/-- Every graph transition preserves `current_step_index ≤ len plan`. -/
lemma graphStep_preserves_cursor_bound
    {g g' : Phase × AgentState} (hstep : GraphStep g g')
    (hinv : g.2.current_step_index ≤ g.2.plan.length) :
    g'.2.current_step_index ≤ g'.2.plan.length := by
  cases hstep with
  | planner llm s =>
    show (planApply llm s).current_step_index ≤ (planApply llm s).plan.length
    unfold planApply
    cases h : plannerNode llm s with
    | none => simpa using hinv
    | some u => simp [plannerNode_idx llm s u h]
  | route c s => exact hinv
  | research w s s' h =>
    have hinv' : s.current_step_index ≤ s.plan.length := hinv
    obtain ⟨hlt, hc⟩ := researchNode_ok_cases w s s' h
    show s'.current_step_index ≤ s'.plan.length
    rcases hc with ⟨h1, h2⟩ | ⟨h1, h2⟩
    · rw [h1, h2]; exact hinv'
    · rw [h1, h2]; omega
  | gis w s s' h =>
    obtain ⟨hlt, h1, h2⟩ := gisNode_ok_cases w s s' h
    show s'.current_step_index ≤ s'.plan.length
    rw [h1, h2]; omega
  | iucn w s s' h =>
    obtain ⟨hlt, h1, h2⟩ := iucnNode_ok_cases w s s' h
    show s'.current_step_index ≤ s'.plan.length
    rw [h1, h2]; omega
  | synth fd ans s => exact hinv

/-- Claim C4: within one orchestrator invocation, (1) every reachable
state keeps `current_step_index ≤ len plan`; (2) any transition that
increases the cursor increases it by exactly one and starts from a state
with `current_step_index < len plan`; (3) the router sends every state
with `current_step_index ≥ len plan` to synthesis. -/
theorem graph_cursor_invariant :
    (∀ g : Phase × AgentState, GraphReachable g →
      g.2.current_step_index ≤ g.2.plan.length) ∧
    (∀ g g' : Phase × AgentState, GraphStep g g' →
      g.2.current_step_index < g'.2.current_step_index →
      g'.2.current_step_index = g.2.current_step_index + 1 ∧
        g.2.current_step_index < g.2.plan.length) ∧
    (∀ (c : Option String) (s : AgentState),
      s.plan.length ≤ s.current_step_index →
      routeDecision c s = Route.synthesize) := by
  refine ⟨?_, ?_, ?_⟩
  · intro g hg
    induction hg with
    | init q hist => simp [initState]
    | step _ hstep ih => exact graphStep_preserves_cursor_bound hstep ih
  · intro g g' hstep hadv
    cases hstep with
    | planner llm s =>
      exfalso
      revert hadv
      show ¬ s.current_step_index < (planApply llm s).current_step_index
      unfold planApply
      cases h : plannerNode llm s with
      | none => simp
      | some u => simp [plannerNode_idx llm s u h]
    | route c s => exact absurd hadv (by simp)
    | research w s s' h =>
      obtain ⟨hlt, hc⟩ := researchNode_ok_cases w s s' h
      have hadv' : s.current_step_index < s'.current_step_index := hadv
      rcases hc with ⟨h1, _⟩ | ⟨h1, _⟩
      · rw [h1] at hadv'; exact absurd hadv' (by omega)
      · exact ⟨h1, hlt⟩
    | gis w s s' h =>
      obtain ⟨hlt, h1, _⟩ := gisNode_ok_cases w s s' h
      exact ⟨h1, hlt⟩
    | iucn w s s' h =>
      obtain ⟨hlt, h1, _⟩ := iucnNode_ok_cases w s s' h
      exact ⟨h1, hlt⟩
    | synth fd ans s => exact absurd hadv (by simp [synthApply])
  · intro c s hle
    unfold routeDecision
    rw [if_pos hle]

theorem graph_cursor_invariant_witness :
    ({ initState "Where does tulsi grow" with chat_history := [] } :
        AgentState).current_step_index ≤
      ({ initState "Where does tulsi grow" with chat_history := [] } :
        AgentState).plan.length ∧
    routeDecision none (initState "done state") = Route.synthesize ∧
    (({ initState "w" with
          plan := ["Find habitat"],
          gis_data := [OResult.mk []],
          current_step_index := 1 } : AgentState).current_step_index =
      ({ initState "w" with plan := ["Find habitat"] } :
        AgentState).current_step_index + 1 ∧
      ({ initState "w" with plan := ["Find habitat"] } :
        AgentState).current_step_index <
        ({ initState "w" with plan := ["Find habitat"] } :
          AgentState).plan.length) :=
  ⟨graph_cursor_invariant.1 (Phase.planner,
      { initState "Where does tulsi grow" with chat_history := [] })
      (GraphReachable.init "Where does tulsi grow" []),
   graph_cursor_invariant.2.2 none (initState "done state") (by decide),
   graph_cursor_invariant.2.1
      (Phase.gis, { initState "w" with plan := ["Find habitat"] })
      (Phase.router,
        { initState "w" with
            plan := ["Find habitat"],
            gis_data := [OResult.mk []],
            current_step_index := 1 })
      (GraphStep.gis emptyWorker _ _ (by decide)) (by decide)⟩

/-- Concrete facts about the alias dictionary: a key string occurs only in
its own entry's variant list. -/
lemma key_only_in_own_list :
    ∀ a ∈ commonNameMap, ∀ b ∈ commonNameMap, a.1 ∈ b.2 → a = b := by decide

/-- Every entry's variant list contains its key. -/
lemma key_in_own_list : ∀ a ∈ commonNameMap, a.1 ∈ a.2 := by decide

/-- The result of a fold of `extractOneStep` is either the initial best or
one of the folded choices with its exact score. -/
lemma extractOne_fold_spec (w : String) (l : List String)
    (best : Option (String × Nat × Nat)) (k : String) (n d : Nat)
    (h : l.foldl (extractOneStep w) best = some (k, n, d)) :
    (k ∈ l ∧ n = fuzzNum w k ∧ d = fuzzDen w k) ∨ best = some (k, n, d) := by
  induction l generalizing best with
  | nil => exact Or.inr h
  | cons c cs ih =>
    rcases ih (extractOneStep w best c) h with hl | he
    · exact Or.inl ⟨List.mem_cons_of_mem _ hl.1, hl.2⟩
    · rcases best with _ | ⟨bk, bn, bd⟩
      · simp only [extractOneStep] at he
        cases he
        exact Or.inl ⟨List.mem_cons_self _ _, rfl, rfl⟩
      · simp only [extractOneStep] at he
        by_cases hgt : fuzzNum w c * bd > bn * fuzzDen w c
        · rw [if_pos hgt] at he
          cases he
          exact Or.inl ⟨List.mem_cons_self _ _, rfl, rfl⟩
        · rw [if_neg hgt] at he
          exact Or.inr he

/-- The best fuzzy match is one of the dictionary keys. -/
lemma extractOne_mem_keys (w k : String) (n d : Nat)
    (h : extractOne w dictKeys = some (k, n, d)) : k ∈ dictKeys := by
  rcases extractOne_fold_spec w dictKeys none k n d h with hl | he
  · exact hl.1
  · exact Option.noConfusion he

/-- `variantsOf` of a dictionary key is the variant list of its (unique)
entry. -/
lemma variantsOf_spec (k : String) (hk : k ∈ dictKeys) :
    ∃ kv, kv ∈ commonNameMap ∧ kv.1 = k ∧ variantsOf k = kv.2 := by
  obtain ⟨kv, hkv, hfst⟩ := List.mem_map.mp hk
  cases hf : commonNameMap.find? (fun kv => kv.1 = k) with
  | none =>
    exfalso
    have := List.find?_eq_none.mp hf kv hkv
    simp [hfst] at this
  | some kv' =>
    refine ⟨kv', List.mem_of_find?_eq_some hf, ?_, ?_⟩
    · simpa using List.find?_some hf
    · simp [variantsOf, hf]

/-- Appending a whole variant list preserves the closure invariant. -/
lemma goodAcc_append (acc : List String) (kv : String × List String)
    (hkv : kv ∈ commonNameMap) (h : GoodAcc acc) : GoodAcc (acc ++ kv.2) := by
  intro kv' hkv' hmem v hv
  rcases List.mem_append.mp hmem with hin | hin
  · exact List.mem_append_left _ (h kv' hkv' hin v hv)
  · have : kv' = kv := key_only_in_own_list kv' hkv' kv hkv hin
    subst this
    exact List.mem_append_right _ hv

/-- The exact phase establishes the closure invariant. -/
lemma exactPhase_good (ql : String) : GoodAcc (exactPhase ql) := by
  unfold exactPhase
  have : ∀ (l : List (String × List String)), (∀ kv ∈ l, kv ∈ commonNameMap) →
      ∀ acc, GoodAcc acc → GoodAcc (l.foldl (exactStep ql) acc) := by
    intro l
    induction l with
    | nil => exact fun _ acc h => h
    | cons kv kvs ih =>
      intro hmem acc hacc
      refine ih (fun x hx => hmem x (List.mem_cons_of_mem _ hx)) _ ?_
      unfold exactStep
      split
      · exact goodAcc_append acc kv (hmem kv (List.mem_cons_self _ _)) hacc
      · exact hacc
  exact this commonNameMap (fun _ h => h) [] (fun _ _ h => absurd h (List.not_mem_nil _))

/-- One fuzzy step preserves the closure invariant. -/
lemma fuzzyStep_good (acc : List String) (w : String) (h : GoodAcc acc) :
    GoodAcc (fuzzyStep acc w) := by
  unfold fuzzyStep
  split
  · exact h
  · split
    · exact h
    next k n d hex =>
      split
      · split
        · exact h
        · obtain ⟨kv, hkv, _, hvar⟩ :=
            variantsOf_spec k (extractOne_mem_keys w k n d hex)
          rw [hvar]
          exact goodAcc_append acc kv hkv h
      · exact h

/-- One fuzzy step only grows the accumulator. -/
lemma fuzzyStep_mono (acc : List String) (w : String) :
    ∀ x ∈ acc, x ∈ fuzzyStep acc w := by
  intro x hx
  unfold fuzzyStep
  split
  · exact hx
  · split
    · exact hx
    next k n d hex =>
      split
      · split
        · exact hx
        · exact List.mem_append_left _ hx
      · exact hx

/-- The fuzzy loop only grows the accumulator. -/
lemma fuzzyPhase_mono (ws : List String) :
    ∀ acc, ∀ x ∈ acc, x ∈ fuzzyPhase ws acc := by
  induction ws with
  | nil => exact fun _ _ hx => hx
  | cons c cs ih =>
    intro acc x hx
    exact ih (fuzzyStep acc c) x (fuzzyStep_mono acc c x hx)

/-- A word of length at least 4, not a stopword, whose best-scoring
dictionary key exceeds the 79 threshold, forces all variants of that key
into the fuzzy loop's output. -/
lemma fuzzyPhase_hit (ws : List String) (acc : List String) (w k : String)
    (n d : Nat)
    (hw : w ∈ ws) (hlen : ¬ w.length < 4) (hsw : stopwords.contains w = false)
    (hex : extractOne w dictKeys = some (k, n, d)) (hth : 79 * d < n)
    (hgood : GoodAcc acc) :
    ∀ v ∈ variantsOf k, v ∈ fuzzyPhase ws acc := by
  induction ws generalizing acc with
  | nil => exact absurd hw (List.not_mem_nil _)
  | cons c cs ih =>
    intro v hv
    rcases List.mem_cons.mp hw with hwc | hwcs
    · subst hwc
      have hcond : ¬((decide (w.length < 4) || stopwords.contains w) = true) := by
        rw [hsw]
        simpa using hlen
      have hstep : v ∈ fuzzyStep acc w := by
        unfold fuzzyStep
        rw [if_neg hcond]
        simp only [hex]
        rw [if_pos hth]
        split
        next hcont =>
          obtain ⟨kv, hkv, hfst, hvar⟩ :=
            variantsOf_spec k (extractOne_mem_keys w k n d hex)
          have hkmem : kv.1 ∈ acc := by
            rw [hfst]
            simpa using hcont
          exact hgood kv hkv hkmem v (by rw [← hvar]; exact hv)
        · exact List.mem_append_right _ hv
      exact fuzzyPhase_mono cs (fuzzyStep acc w) v hstep
    · exact ih (fuzzyStep acc c) hwcs (fuzzyStep_good acc c hgood) v hv

/-- Claim C9 (counterexample): "neam" is a single substitution away from
the dictionary key "neem" (Levenshtein distance 1), has length 4 and is no
stopword, yet `_extract_plant_names` returns the empty set for it: the
rapidfuzz score of a one-substitution variant of a 4-letter key is
75 ≤ 79. -/
theorem one_edit_neighbour_not_extracted :
    levenshtein "neam".data "neem".data = 1 ∧
    "neem" ∈ dictKeys ∧
    ¬ ("neam" : String).length < 4 ∧
    stopwords.contains "neam" = false ∧
    extractOne "neam" dictKeys = some ("neem", 600, 8) ∧
    extractPlantNames "neam" = [] := by
  decide

/-- Claim C9 (amended): for every query word of length at least 4 that is
not a stopword and whose best fuzzy match among the canonical keys has
normalized InDel similarity strictly above 79 percent (true for a
one-character transposition such as "tusli" against "tulsi", but not for
every one-edit variant — a single substitution against the 4-letter key
"neem" scores 75), `_extract_plant_names` returns a non-empty list
containing every canonical alias of the matched key. -/
theorem fuzzy_match_includes_all_aliases (query w k : String) (n d : Nat)
    (hw : w ∈ pySplit (pyLower query))
    (hlen : ¬ w.length < 4)
    (hsw : stopwords.contains w = false)
    (hex : extractOne w dictKeys = some (k, n, d))
    (hth : 79 * d < n) :
    (∀ v ∈ variantsOf k, v ∈ extractPlantNames query) ∧
    extractPlantNames query ≠ [] := by
  have hgood := exactPhase_good (pyLower query)
  have hhit := fuzzyPhase_hit (pySplit (pyLower query)) (exactPhase (pyLower query))
    w k n d hw hlen hsw hex hth hgood
  constructor
  · intro v hv
    unfold extractPlantNames
    exact List.mem_dedup.mpr (hhit v hv)
  · obtain ⟨kv, hkv, hfst, hvar⟩ := variantsOf_spec k (extractOne_mem_keys w k n d hex)
    have hk : k ∈ variantsOf k := by
      rw [hvar, ← hfst]
      exact key_in_own_list kv hkv
    have : k ∈ extractPlantNames query := by
      unfold extractPlantNames
      exact List.mem_dedup.mpr (hhit k hk)
    exact List.ne_nil_of_mem this

theorem fuzzy_match_includes_all_aliases_witness :
    "tulsi" ∈ extractPlantNames "Tell me about Tusli" ∧
    extractPlantNames "Tell me about Tusli" ≠ [] := by
  have h := fuzzy_match_includes_all_aliases "Tell me about Tusli" "tusli"
    "tulsi" 800 10 (by decide) (by decide) (by decide) (by decide) (by decide)
  exact ⟨h.1 "tulsi" (by decide), h.2⟩

end Sanjeevani
